import Mathlib

/-!
Verification of the devolt judgment-worker core: a shallow embedding of the
judgment aggregation (`src/schema/webhook_event/judgment.py`), the verdict
stream parser and supervisor termination logic (`src/worker/helpers.py`),
and the dict-oriented schema layer (`src/schema/schema.py`,
`src/schema/verdict.py`, `src/common/utils.py`).

Python is dynamically typed, so dictionary values and `Verdict` fields are
modelled by the scalar value type `PyVal` (the runner protocol carries only
scalar JSON values).  Code that can raise is modelled with `Except String`.
-/

namespace Devolt

/-- Modelled from the spec: the `FailureCause` enum is imported by the worker
from `common` but its definition file is not part of the sources; the spec's
failure taxonomy (section 7) lists its nine members, and webhook serialization
uses "enums as their string value", so each member's `value` is its name. -/
inductive FailureCause where
  | COMPILE_ERROR
  | COMPILE_TIMEOUT
  | COMPILE_OUT_OF_MEMORY
  | RUNTIME_ERROR
  | RUNTIME_TIMEOUT
  | RUNTIME_OUT_OF_MEMORY
  | WRONG_ANSWER
  | SANDBOX_TIMEOUT
  | SANDBOX_OUT_OF_MEMORY
  deriving DecidableEq, Repr

/-- String value of a `FailureCause` member (Python `member.value`). -/
def FailureCause.value : FailureCause → String
  | .COMPILE_ERROR => "COMPILE_ERROR"
  | .COMPILE_TIMEOUT => "COMPILE_TIMEOUT"
  | .COMPILE_OUT_OF_MEMORY => "COMPILE_OUT_OF_MEMORY"
  | .RUNTIME_ERROR => "RUNTIME_ERROR"
  | .RUNTIME_TIMEOUT => "RUNTIME_TIMEOUT"
  | .RUNTIME_OUT_OF_MEMORY => "RUNTIME_OUT_OF_MEMORY"
  | .WRONG_ANSWER => "WRONG_ANSWER"
  | .SANDBOX_TIMEOUT => "SANDBOX_TIMEOUT"
  | .SANDBOX_OUT_OF_MEMORY => "SANDBOX_OUT_OF_MEMORY"

/-- Python `FailureCause(s)`: value-string to member, `ValueError` when invalid. -/
def FailureCause.fromValue? (s : String) : Option FailureCause :=
  if s = "COMPILE_ERROR" then some .COMPILE_ERROR
  else if s = "COMPILE_TIMEOUT" then some .COMPILE_TIMEOUT
  else if s = "COMPILE_OUT_OF_MEMORY" then some .COMPILE_OUT_OF_MEMORY
  else if s = "RUNTIME_ERROR" then some .RUNTIME_ERROR
  else if s = "RUNTIME_TIMEOUT" then some .RUNTIME_TIMEOUT
  else if s = "RUNTIME_OUT_OF_MEMORY" then some .RUNTIME_OUT_OF_MEMORY
  else if s = "WRONG_ANSWER" then some .WRONG_ANSWER
  else if s = "SANDBOX_TIMEOUT" then some .SANDBOX_TIMEOUT
  else if s = "SANDBOX_OUT_OF_MEMORY" then some .SANDBOX_OUT_OF_MEMORY
  else none

/-- CodeLanguage enum from `src/common/enums.py` (values equal names). -/
inductive CodeLanguage where
  | JAVA17
  | NODEJS20
  | NODEJS20ESM
  | PYTHON3
  | C11
  | CPP17
  deriving DecidableEq, Repr

/-- String value of a `CodeLanguage` member. -/
def CodeLanguage.value : CodeLanguage → String
  | .JAVA17 => "JAVA17"
  | .NODEJS20 => "NODEJS20"
  | .NODEJS20ESM => "NODEJS20ESM"
  | .PYTHON3 => "PYTHON3"
  | .C11 => "C11"
  | .CPP17 => "CPP17"

/-- Scalar Python/JSON values as they flow through the worker: `None`,
booleans, ints, floats (modelled exactly as rationals; the code only ever
compares them, never does float arithmetic), strings, and the two enum
object kinds held in schema fields. -/
inductive PyVal where
  | none
  | bool (b : Bool)
  | int (n : Int)
  | num (q : ℚ)
  | str (s : String)
  | fc (c : FailureCause)
  | lang (l : CodeLanguage)
  deriving DecidableEq, Repr

/-- Python truthiness (`bool(x)`): `None`, `False`, zero and the empty string
are falsy; enum members are truthy. -/
def pyTruthy : PyVal → Bool
  | .none => false
  | .bool b => b
  | .int n => n ≠ 0
  | .num q => q ≠ 0
  | .str s => s ≠ ""
  | .fc _ => true
  | .lang _ => true

/-- Numeric view used by Python comparisons (`bool` counts as 0/1). -/
def pyToRat? : PyVal → Option ℚ
  | .bool b => some (if b then 1 else 0)
  | .int n => some (n : ℚ)
  | .num q => some q
  | _ => Option.none

/-- Python `max(a, b)`: keeps `a` unless `b > a`; raises `TypeError` when the
operands do not compare (only numeric mixes occur in the worker). -/
def pyMax (a b : PyVal) : Except String PyVal :=
  match pyToRat? a, pyToRat? b with
  | some x, some y => .ok (if x < y then b else a)
  | _, _ => .error "TypeError: unsupported operand comparison in max"

/-- Python `int(x)` as used on the `exitCode` field: ints pass through,
booleans become 0/1, floats truncate toward zero, decimal strings parse,
everything else (including `None`) raises. -/
def pyInt? : PyVal → Option Int
  | .int n => some n
  | .bool b => some (if b then 1 else 0)
  | .num q => some (q.num.tdiv (q.den : Int))
  | .str s => s.toInt?
  | _ => Option.none

/-- Verdict dataclass from `src/schema/verdict.py`; all fields are dynamic
Python values, optional fields default to `None`. -/
structure Verdict where
  passed : PyVal
  test_case_index : PyVal := PyVal.none
  memory_usage_mb : PyVal := PyVal.none
  elapsed_time_ms : PyVal := PyVal.none
  failure_cause : PyVal := PyVal.none
  failure_detail : PyVal := PyVal.none
  deriving DecidableEq, Repr

/-- Common identifying fields of `Judgment` in
`src/schema/webhook_event/judgment.py` (the `base_kwargs` of
`create_judgment_from_verdicts`; the `passed` flag is captured by the
`Judgment` constructor below). -/
structure JudgmentCommon where
  user_id : Int
  job_id : String
  challenge_id : Int
  code_language : CodeLanguage
  code : String
  code_byte_size : Int
  submitted_at : String
  deriving DecidableEq, Repr

/-- Final judgment: `PassedJudgment` (with `passed = True`) or
`UnpassedJudgment` (with `passed = False`), as in
`src/schema/webhook_event/judgment.py`. -/
inductive Judgment where
  | passed (common : JudgmentCommon) (max_memory_usage_mb : PyVal) (max_elapsed_time_ms : PyVal)
  | unpassed (common : JudgmentCommon) (failure_cause : PyVal) (failure_detail : PyVal)
  deriving DecidableEq, Repr

/-- Discriminator for the `PassedJudgment` variant. -/
def Judgment.isPassed : Judgment → Bool
  | .passed _ _ _ => true
  | .unpassed _ _ _ => false

/-- Common fields of either judgment variant. -/
def Judgment.common : Judgment → JudgmentCommon
  | .passed c _ _ => c
  | .unpassed c _ _ => c

/-- UnpassedJudgment `__post_init__`: a string `failure_cause` is converted via
`FailureCause(...)` (raising `ValueError` on an invalid value); anything else
is stored as-is. -/
def unpassedPostInit (v : PyVal) : Except String PyVal :=
  match v with
  | .str s =>
    match FailureCause.fromValue? s with
    | some c => .ok (.fc c)
    | Option.none => .error "ValueError: not a valid FailureCause"
  | other => .ok other

/-- Loop body of `create_judgment_from_verdicts` (`judgment.py` lines 124-149)
with the two `max` accumulators made explicit: the first non-passing verdict
returns an `UnpassedJudgment` copying its cause and detail (raising when the
cause is `None`); passing verdicts must carry both measurements, which feed
the running maxima; an exhausted list yields a `PassedJudgment`. -/
def create_judgment_go (common : JudgmentCommon) :
    List Verdict → PyVal → PyVal → Except String Judgment
  | [], mm, me => .ok (.passed common mm me)
  | v :: rest, mm, me =>
    if pyTruthy v.passed = false then
      if v.failure_cause = PyVal.none then
        .error "Invalid Verdict: Failure verdict has no failure cause."
      else
        match unpassedPostInit v.failure_cause with
        | .ok fc => .ok (.unpassed common fc v.failure_detail)
        | .error e => .error e
    else
      if v.memory_usage_mb = PyVal.none ∨ v.elapsed_time_ms = PyVal.none then
        .error "Invalid Verdict: All verdicts must provide memory_usage_mb and elapsed_time_ms for PassedJudgment."
      else
        match pyMax mm v.memory_usage_mb, pyMax me v.elapsed_time_ms with
        | .ok mm', .ok me' => create_judgment_go common rest mm' me'
        | .error e, _ => .error e
        | _, .error e => .error e

/-- Factory `create_judgment_from_verdicts` of
`src/schema/webhook_event/judgment.py`: accumulators start at `0.0` (float)
and `0` (int). -/
def create_judgment_from_verdicts (common : JudgmentCommon) (verdicts : List Verdict) :
    Except String Judgment :=
  create_judgment_go common verdicts (PyVal.num 0) (PyVal.int 0)

/-- Webhook events that the worker dispatches: `TestCaseResult`, the final
judgment (`PassedJudgment`/`UnpassedJudgment`), and `Error` (whose `detail`
defaults to `"Internal server error"`, `src/schema/webhook_event/error.py`). -/
inductive Event where
  | testCaseResult (job_id : String) (verdict : Verdict)
  | judgment (j : Judgment)
  | error (job_id : String) (detail : String)
  deriving DecidableEq, Repr

/-- One stripped line of sandbox output, abstracted past `json.loads`: empty
after stripping, not JSON at all, a JSON value that is not an object, or a
JSON object given as its key-value entries (the runner protocol uses only
scalar values). Each carries the raw text for the unexpected-output list. -/
inductive StreamLine where
  | empty
  | notJson (raw : String)
  | jsonNonDict (raw : String) (v : PyVal)
  | jsonDict (raw : String) (entries : List (String × PyVal))
  deriving DecidableEq, Repr

/-- Raw text of a line. -/
def StreamLine.raw : StreamLine → String
  | .empty => ""
  | .notJson r => r
  | .jsonNonDict r _ => r
  | .jsonDict r _ => r

/-- Python `result.get(key)`: the value when present, `None` otherwise. -/
def dget (entries : List (String × PyVal)) (k : String) : PyVal :=
  match entries.lookup k with
  | some v => v
  | Option.none => PyVal.none

/-- Mutable state of one `async_handle_output` reader: the shared verdicts
list, the accumulated unexpected output, and the webhook events dispatched
so far (dispatch order). -/
structure ParseState where
  verdicts : List Verdict := []
  unexpected : List String := []
  events : List Event := []
  deriving DecidableEq, Repr

/-- Exit-code table of `async_handle_output` (`helpers.py` lines 177-182):
`failure_reason_map.get(exit_code, default_failure_reason)` where the default
is the entry for 0. -/
def failure_reason_for (error_status : String) (exit_code : Int) : FailureCause :=
  if exit_code = 0 then
    (if error_status = "compileError" then .COMPILE_ERROR else .RUNTIME_ERROR)
  else if exit_code = 124 then
    (if error_status = "compileError" then .COMPILE_TIMEOUT else .RUNTIME_TIMEOUT)
  else if exit_code = 137 then
    (if error_status = "compileError" then .COMPILE_OUT_OF_MEMORY else .RUNTIME_OUT_OF_MEMORY)
  else
    (if error_status = "compileError" then .COMPILE_ERROR else .RUNTIME_ERROR)

/-- Message of the exception raised for a `systemError` line
(`raise Exception(result.get('error'))`); only its occurrence matters. -/
def pyExceptionMsg : PyVal → String
  | .str s => s
  | _ => ""

/-- Failing verdict built for a `compileError`/`runtimeError` line
(`helpers.py` lines 185-190): no `testCaseIndex` for the compile phase, the
index from the line otherwise; the cause from the exit-code table; the line's
`error` field as the detail. -/
def parsed_error_verdict (entries : List (String × PyVal)) (s : String)
    (exit_code : Int) : Verdict :=
  { passed := PyVal.bool false,
    test_case_index := if s = "compileError" then PyVal.none else dget entries "testCaseIndex",
    failure_cause := PyVal.fc (failure_reason_for s exit_code),
    failure_detail := dget entries "error" }

/-- Verdict built for a line with a boolean `passed` field (`helpers.py`
lines 198-208): a passing verdict carries the index and the two measurements
from the line, a failing one gets `WRONG_ANSWER` and no detail. -/
def parsed_bool_verdict (entries : List (String × PyVal)) (b : Bool) : Verdict :=
  if b then
    { passed := PyVal.bool b,
      test_case_index := dget entries "testCaseIndex",
      elapsed_time_ms := dget entries "elapsedTimeMs",
      memory_usage_mb := dget entries "memoryUsageMb" }
  else
    { passed := PyVal.bool b,
      test_case_index := dget entries "testCaseIndex",
      failure_cause := PyVal.fc FailureCause.WRONG_ANSWER }

/-- Classification of one parsed JSON object on stdout (`helpers.py` lines
161-218): a string `status` selects the system-error / compile-error /
runtime-error handling (with `int(exitCode)` raising on a missing or
non-numeric value), otherwise a boolean `passed` yields a passing or a
`WRONG_ANSWER` verdict, and anything else accumulates as unexpected output.
Produced verdicts are appended and dispatched as `TestCaseResult` events. -/
def processDict (job_id : String) (st : ParseState) (raw : String)
    (entries : List (String × PyVal)) : Except String ParseState :=
  let error_status := dget entries "status"
  let passedVal := dget entries "passed"
  match error_status with
  | PyVal.str s =>
    if s = "systemError" then
      .error (pyExceptionMsg (dget entries "error"))
    else
      match pyInt? (dget entries "exitCode") with
      | Option.none => .error "TypeError: int() argument is not a number"
      | some exit_code =>
        let verdict := parsed_error_verdict entries s exit_code
        .ok { st with verdicts := st.verdicts ++ [verdict],
                      events := st.events ++ [Event.testCaseResult job_id verdict] }
  | _ =>
    match passedVal with
    | PyVal.bool b =>
      let verdict := parsed_bool_verdict entries b
      .ok { st with verdicts := st.verdicts ++ [verdict],
                    events := st.events ++ [Event.testCaseResult job_id verdict] }
    | _ => .ok { st with unexpected := st.unexpected ++ [raw] }

/-- Per-line behavior of `async_handle_output` (`helpers.py` lines 148-221):
empty lines are skipped, every non-empty stderr line accumulates as
unexpected output before any JSON handling, and stdout lines go through JSON
classification (a non-JSON or non-object stdout line accumulates as
unexpected output just like a stderr line would). -/
def processLine (stream_name : String) (job_id : String) (st : ParseState) :
    StreamLine → Except String ParseState
  | .empty => .ok st
  | .notJson raw =>
    if stream_name = "stderr" then
      .ok { st with unexpected := st.unexpected ++ [raw] }
    else
      .ok { st with unexpected := st.unexpected ++ [raw] }
  | .jsonNonDict raw _ =>
    if stream_name = "stderr" then
      .ok { st with unexpected := st.unexpected ++ [raw] }
    else
      .ok { st with unexpected := st.unexpected ++ [raw] }
  | .jsonDict raw entries =>
    if stream_name = "stderr" then
      .ok { st with unexpected := st.unexpected ++ [raw] }
    else
      processDict job_id st raw entries

/-- Reader loop over the whole stream; an exception stops the loop and leaves
the state accumulated so far (the flag records that it was raised). -/
def runLines (stream_name : String) (job_id : String) :
    List StreamLine → ParseState → ParseState × Bool
  | [], st => (st, false)
  | l :: ls, st =>
    match processLine stream_name job_id st l with
    | .ok st' => runLines stream_name job_id ls st'
    | .error _ => (st, true)

/-- Observable outcome of one `async_handle_output` coroutine. -/
structure HandlerResult where
  verdicts : List Verdict
  unexpected : List String
  events : List Event
  raised : Bool
  killed_proc : Bool
  cleanup_set : Bool
  deriving DecidableEq, Repr

/-- Whole-stream behavior of `async_handle_output` (`helpers.py` lines
145-231): after the loop, leftover unexpected output raises; any raised
exception is caught by the handler, which kills the sandbox process, sets the
shared cleanup event and dispatches an `Error` webhook event. -/
def async_handle_output (stream_name : String) (job_id : String)
    (lines : List StreamLine) : HandlerResult :=
  let r := runLines stream_name job_id lines {}
  let raised := r.2 || !r.1.unexpected.isEmpty
  if raised then
    { verdicts := r.1.verdicts, unexpected := r.1.unexpected,
      events := r.1.events ++ [Event.error job_id "Internal server error"],
      raised := true, killed_proc := true, cleanup_set := true }
  else
    { verdicts := r.1.verdicts, unexpected := r.1.unexpected, events := r.1.events,
      raised := false, killed_proc := false, cleanup_set := false }

/-- Outcome of `handle_webhook_response` (`helpers.py` lines 91-115). -/
structure WebhookHandling where
  killed_proc : Bool
  cleanup_set : Bool
  deriving DecidableEq, Repr

/-- Coroutine `handle_webhook_response`: on a response code other than 200 it
kills the sandbox process (only when still running) and sets the shared
cleanup event; otherwise it leaves both alone. -/
def handle_webhook_response (response_code : Int) (proc_alive : Bool)
    (cleanup_set : Bool) : WebhookHandling :=
  if response_code ≠ 200 then
    { killed_proc := proc_alive, cleanup_set := true }
  else
    { killed_proc := false, cleanup_set := cleanup_set }

/-- Sandbox-level timeout verdict appended by the supervisor
(`helpers.py` lines 313-317). -/
def sandbox_timeout_verdict : Verdict :=
  { passed := PyVal.bool false,
    failure_cause := PyVal.fc FailureCause.SANDBOX_TIMEOUT,
    failure_detail := PyVal.str "최대 실행 시간 제한을 초과하였습니다" }

/-- Sandbox-level out-of-memory verdict appended by the supervisor
(`helpers.py` lines 322-326). -/
def sandbox_oom_verdict : Verdict :=
  { passed := PyVal.bool false,
    failure_cause := PyVal.fc FailureCause.SANDBOX_OUT_OF_MEMORY,
    failure_detail := PyVal.str "최대 메모리 사용량 제한을 초과하였습니다" }

/-- Termination classification of `async_execute_code` (`helpers.py` lines
307-329): an already-recorded non-passing verdict suppresses any sandbox-level
marker; otherwise a fired wall deadline appends and dispatches a
`SANDBOX_TIMEOUT` verdict, else exit code 137 appends and dispatches a
`SANDBOX_OUT_OF_MEMORY` verdict. Returns the updated verdict list and the
`TestCaseResult` events dispatched by this step. -/
def termination_classification (job_id : String) (verdicts : List Verdict)
    (is_sandbox_timed_out : Bool) (returncode : Option Int) :
    List Verdict × List Event :=
  if verdicts.any (fun v => !(pyTruthy v.passed)) then
    (verdicts, [])
  else if is_sandbox_timed_out then
    (verdicts ++ [sandbox_timeout_verdict],
     [Event.testCaseResult job_id sandbox_timeout_verdict])
  else if returncode = some (137 : Int) then
    (verdicts ++ [sandbox_oom_verdict],
     [Event.testCaseResult job_id sandbox_oom_verdict])
  else
    (verdicts, [])

/-- Job dataclass from `src/schema/job/code_challenge_judgment_job.py`. -/
structure CodeChallengeJudgmentJob where
  job_id : String
  stop_flag : Bool
  code_language : CodeLanguage
  code : String
  challenge_id : Int
  total_test_cases : Int
  verdicts : List Verdict
  submitted_at : String
  deriving DecidableEq, Repr

/-- Externally visible supervisor actions after the reader tasks drain. -/
inductive Action where
  | dispatch (e : Event)
  | deleteJob (job_id : String) (user_id : Int)
  deriving DecidableEq, Repr

/-- Tail of `async_execute_code` (`helpers.py` lines 303-343): when the
cleanup event is set the job record is deleted and the coroutine returns with
no further dispatch; otherwise termination classification runs, the final
judgment is built with `code_byte_size = len(job.code)` and dispatched, and
the job record is deleted. An exception from the judgment factory
propagates. -/
def supervisor_finish (user_id : Int) (job : CodeChallengeJudgmentJob)
    (verdicts : List Verdict) (is_sandbox_timed_out : Bool)
    (returncode : Option Int) (cleanup_set : Bool) :
    Except String (List Action) :=
  if cleanup_set then
    .ok [Action.deleteJob job.job_id user_id]
  else
    let vsEvts := termination_classification job.job_id verdicts is_sandbox_timed_out returncode
    match create_judgment_from_verdicts
        { user_id := user_id, job_id := job.job_id, challenge_id := job.challenge_id,
          code_language := job.code_language, code := job.code,
          code_byte_size := (job.code.length : Int), submitted_at := job.submitted_at }
        vsEvts.1 with
    | .ok judgment =>
      .ok (vsEvts.2.map Action.dispatch ++
           [Action.dispatch (Event.judgment judgment), Action.deleteJob job.job_id user_id])
    | .error e => .error e

/-- Python `str.split('_')`: components between underscores, empties kept. -/
def splitUnderscore : List Char → List (List Char)
  | [] => [[]]
  | c :: rest =>
    let ws := splitUnderscore rest
    if c = '_' then [] :: ws
    else
      match ws with
      | [] => [[c]]
      | w :: ws' => (c :: w) :: ws'

/-- Python `str.title()` on ASCII text: an alphabetic character is uppercased
when the previous character is not alphabetic and lowercased otherwise. -/
def pyTitleGo : Bool → List Char → List Char
  | _, [] => []
  | prevAlpha, c :: rest =>
    (if c.isAlpha then (if prevAlpha then c.toLower else c.toUpper) else c)
      :: pyTitleGo c.isAlpha rest

/-- Function `snake_to_camel` from `src/common/utils.py`:
`components[0]` plus the remaining components title-cased. -/
def snake_to_camel (s : String) : String :=
  match splitUnderscore s.toList with
  | [] => ""
  | c :: rest => String.mk (c ++ (rest.map (pyTitleGo false)).flatten)

/-- First substitution of `camel_to_snake`: the regex
`(.)([A-Z][a-z]+)` is replaced by `\1_\2`, scanning left to right with
non-overlapping matches (the scan resumes after each match); structured with
fuel so that it reduces in the kernel. -/
def camelSub1 : Nat → List Char → List Char
  | 0, l => l
  | _ + 1, [] => []
  | _ + 1, [c] => [c]
  | fuel + 1, c :: u :: rest =>
    if u.isUpper ∧ rest.takeWhile Char.isLower ≠ [] then
      c :: '_' :: u :: (rest.takeWhile Char.isLower ++ camelSub1 fuel (rest.dropWhile Char.isLower))
    else
      c :: camelSub1 fuel (u :: rest)

/-- Second substitution of `camel_to_snake`: the regex `([a-z0-9])([A-Z])` is
replaced by `\1_\2`, scanning left to right with non-overlapping matches. -/
def camelSub2 : List Char → List Char
  | [] => []
  | [c] => [c]
  | c :: d :: rest =>
    if (c.isLower || c.isDigit) ∧ d.isUpper then
      c :: '_' :: d :: camelSub2 rest
    else
      c :: camelSub2 (d :: rest)

/-- Function `camel_to_snake` from `src/common/utils.py`: the two regex
substitutions followed by `.lower()`. -/
def camel_to_snake (s : String) : String :=
  String.mk ((camelSub2 (camelSub1 s.toList.length s.toList)).map Char.toLower)

/-- Field names of the `Verdict` dataclass, in declaration order. -/
def verdict_field_names : List String :=
  ["passed", "test_case_index", "memory_usage_mb", "elapsed_time_ms",
   "failure_cause", "failure_detail"]

/-- Helper `Schema._process_value` restricted to the scalar values that occur
in a `Verdict`: enum members serialize to their string value, everything else
passes through. -/
def process_value : PyVal → PyVal
  | .fc c => .str c.value
  | .lang l => .str l.value
  | v => v

/-- Method `Verdict.as_dict` (via `Schema.as_dict`, `src/schema/schema.py`
lines 43-60): every field, keys camel-cased, values through
`_process_value`. -/
def Verdict.as_dict (v : Verdict) : List (String × PyVal) :=
  [ (snake_to_camel "passed", process_value v.passed),
    (snake_to_camel "test_case_index", process_value v.test_case_index),
    (snake_to_camel "memory_usage_mb", process_value v.memory_usage_mb),
    (snake_to_camel "elapsed_time_ms", process_value v.elapsed_time_ms),
    (snake_to_camel "failure_cause", process_value v.failure_cause),
    (snake_to_camel "failure_detail", process_value v.failure_detail) ]

/-- Method `Schema.validate_keys` specialized to `Verdict`: every key must
snake-convert to one of the dataclass field names. -/
def Verdict.validate_keys (d : List (String × PyVal)) : Bool :=
  d.all (fun kv => verdict_field_names.contains (camel_to_snake kv.1))

/-- Classmethod `Verdict.create_from_dict` (`Schema.create_from_dict` plus the
subclass `failure_cause` conversion): validate the keys, snake-case them, call
the constructor (the only field without a default, `passed`, must be present;
absent optional fields take their `None` defaults), then `__post_init__`
converts a string `failure_cause` through `FailureCause(...)`. -/
def Verdict.create_from_dict (d : List (String × PyVal)) : Except String Verdict :=
  if !Verdict.validate_keys d then
    .error "ValueError: Invalid key in input dict"
  else
    let processed := d.map (fun kv => (camel_to_snake kv.1, kv.2))
    match processed.lookup "passed" with
    | Option.none => .error "TypeError: missing required argument passed"
    | some p =>
      let v : Verdict :=
        { passed := p,
          test_case_index := dget processed "test_case_index",
          memory_usage_mb := dget processed "memory_usage_mb",
          elapsed_time_ms := dget processed "elapsed_time_ms",
          failure_cause := dget processed "failure_cause",
          failure_detail := dget processed "failure_detail" }
      match v.failure_cause with
      | PyVal.str s =>
        match FailureCause.fromValue? s with
        | some c => .ok { v with failure_cause := PyVal.fc c }
        | Option.none => .error "ValueError: not a valid FailureCause"
      | _ => .ok v

/-- Field names of every dataclass in `src/schema`: `Verdict`, `Judgment`,
`PassedJudgment`, `UnpassedJudgment`, `CodeChallengeJudgmentJob`,
`TestCaseResult`, `Error`, `JobCancellation` and `SubmissionResult`
(duplicates across classes listed once). -/
def all_schema_field_names : List String :=
  ["passed", "test_case_index", "memory_usage_mb", "elapsed_time_ms",
   "failure_cause", "failure_detail",
   "user_id", "job_id", "challenge_id", "code_language", "code",
   "code_byte_size", "submitted_at",
   "max_memory_usage_mb", "max_elapsed_time_ms",
   "stop_flag", "total_test_cases", "verdicts",
   "verdict", "detail",
   "overall_pass", "max_memory_used_mb", "compile_error", "runtime_error"]

/-! ## Helper lemmas -/

/-- Predicate: the value is one of the enum object kinds. -/
def PyVal.isEnumVal : PyVal → Bool
  | .fc _ => true
  | .lang _ => true
  | _ => false

/-- Boolean check: the action list contains an `Error` event dispatch. -/
def mentionsErrorEvent (acts : List Action) : Bool :=
  acts.any fun a =>
    match a with
    | .dispatch (.error _ _) => true
    | _ => false

/-- Boolean check: the action list contains a final judgment dispatch. -/
def mentionsJudgmentEvent (acts : List Action) : Bool :=
  acts.any fun a =>
    match a with
    | .dispatch (.judgment _) => true
    | _ => false

theorem pyToRat?_ne_none {a : PyVal} {x : ℚ} (h : pyToRat? a = some x) :
    a ≠ PyVal.none := by
  cases a <;> simp [pyToRat?] at h ⊢

theorem pyMax_ok_rat {a b : PyVal} {x y : ℚ} (ha : pyToRat? a = some x)
    (hb : pyToRat? b = some y) :
    ∃ z, pyMax a b = .ok z ∧ pyToRat? z = some (if x < y then y else x) := by
  refine ⟨if x < y then b else a, ?_, ?_⟩
  · simp [pyMax, ha, hb]
  · by_cases h : x < y <;> simp [h, ha, hb]

theorem create_judgment_go_first_nonpass (common : JudgmentCommon) :
    ∀ (pre : List Verdict) (v : Verdict) (post : List Verdict) (mm me : PyVal) (x y : ℚ),
    pyToRat? mm = some x → pyToRat? me = some y →
    (∀ u ∈ pre, pyTruthy u.passed = true ∧
      (∃ m : ℚ, pyToRat? u.memory_usage_mb = some m) ∧
      (∃ e : ℚ, pyToRat? u.elapsed_time_ms = some e)) →
    pyTruthy v.passed = false → ∀ c : FailureCause, v.failure_cause = PyVal.fc c →
    create_judgment_go common (pre ++ v :: post) mm me =
      .ok (.unpassed common (PyVal.fc c) v.failure_detail) := by
  intro pre
  induction pre with
  | nil =>
    intro v post mm me x y _ _ _ hv c hc
    simp [create_judgment_go, hv, hc, unpassedPostInit]
  | cons u pre ih =>
    intro v post mm me x y hmm hme hpre hv c hc
    obtain ⟨hu, ⟨m, hm⟩, ⟨e, he⟩⟩ := hpre u (by simp)
    obtain ⟨z1, hz1, hz1'⟩ := pyMax_ok_rat hmm hm
    obtain ⟨z2, hz2, hz2'⟩ := pyMax_ok_rat hme he
    have h1 : u.memory_usage_mb ≠ PyVal.none := pyToRat?_ne_none hm
    have h2 : u.elapsed_time_ms ≠ PyVal.none := pyToRat?_ne_none he
    simp only [List.cons_append, create_judgment_go, hu, h1, h2, hz1, hz2]
    simp only [Bool.true_eq_false, if_false, or_self, if_neg, not_false_eq_true]
    exact ih v post z1 z2 _ _ hz1' hz2' (fun w hw => hpre w (by simp [hw])) hv c hc

theorem create_judgment_go_all_passed (common : JudgmentCommon) :
    ∀ (vs : List Verdict) (a : ℚ) (b : Int),
    (∀ v ∈ vs, pyTruthy v.passed = true ∧
      (∃ m : ℚ, v.memory_usage_mb = PyVal.num m) ∧
      (∃ e : Int, v.elapsed_time_ms = PyVal.int e)) →
    ∃ M E, create_judgment_go common vs (PyVal.num a) (PyVal.int b) =
        .ok (.passed common (PyVal.num M) (PyVal.int E)) ∧
      a ≤ M ∧ (M = a ∨ ∃ v ∈ vs, v.memory_usage_mb = PyVal.num M) ∧
      (∀ v ∈ vs, ∀ m : ℚ, v.memory_usage_mb = PyVal.num m → m ≤ M) ∧
      b ≤ E ∧ (E = b ∨ ∃ v ∈ vs, v.elapsed_time_ms = PyVal.int E) ∧
      (∀ v ∈ vs, ∀ e : Int, v.elapsed_time_ms = PyVal.int e → e ≤ E) := by
  intro vs
  induction vs with
  | nil =>
    intro a b _
    exact ⟨a, b, by simp [create_judgment_go]⟩
  | cons v vs ih =>
    intro a b h
    obtain ⟨hv, ⟨m, hm⟩, ⟨e, he⟩⟩ := h v (by simp)
    have hmax1 : pyMax (PyVal.num a) v.memory_usage_mb = .ok (PyVal.num (max a m)) := by
      rcases lt_or_le a m with hlt | hle
      · simp [pyMax, pyToRat?, hm, hlt, max_eq_right hlt.le]
      · simp [pyMax, pyToRat?, hm, not_lt.2 hle, max_eq_left hle]
    have hmax2 : pyMax (PyVal.int b) v.elapsed_time_ms = .ok (PyVal.int (max b e)) := by
      rcases lt_or_le b e with hlt | hle
      · have : ((b : ℚ) < (e : ℚ)) := by exact_mod_cast hlt
        simp [pyMax, pyToRat?, he, this, max_eq_right hlt.le]
      · have : ¬ ((b : ℚ) < (e : ℚ)) := by exact_mod_cast not_lt.2 hle
        simp [pyMax, pyToRat?, he, this, max_eq_left hle]
    obtain ⟨M, E, hgo, haM, hMmem, hMbd, hbE, hEmem, hEbd⟩ :=
      ih (max a m) (max b e) (fun w hw => h w (by simp [hw]))
    refine ⟨M, E, ?_, ?_, ?_, ?_, ?_, ?_, ?_⟩
    · have h1 : v.memory_usage_mb ≠ PyVal.none := by rw [hm]; simp
      have h2 : v.elapsed_time_ms ≠ PyVal.none := by rw [he]; simp
      simp only [create_judgment_go, hv, h1, h2, hmax1, hmax2]
      simpa using hgo
    · exact le_trans (le_max_left a m) haM
    · rcases hMmem with hMa | ⟨w, hw, hwm⟩
      · rcases max_cases a m with ⟨hcase, _⟩ | ⟨hcase, _⟩
        · exact Or.inl (hMa.trans hcase)
        · exact Or.inr ⟨v, by simp, by rw [hm, ← hcase, ← hMa]⟩
      · exact Or.inr ⟨w, by simp [hw], hwm⟩
    · intro w hw m' hw'
      rcases List.mem_cons.mp hw with rfl | hmem
      · have : m' = m := by rw [hm] at hw'; exact (PyVal.num.injEq _ _).mp hw'.symm
        exact this ▸ le_trans (le_max_right a m) haM
      · exact hMbd w hmem m' hw'
    · exact le_trans (le_max_left b e) hbE
    · rcases hEmem with hEb | ⟨w, hw, hwe⟩
      · rcases max_cases b e with ⟨hcase, _⟩ | ⟨hcase, _⟩
        · exact Or.inl (hEb.trans hcase)
        · exact Or.inr ⟨v, by simp, by rw [he, ← hcase, ← hEb]⟩
      · exact Or.inr ⟨w, by simp [hw], hwe⟩
    · intro w hw e' hw'
      rcases List.mem_cons.mp hw with rfl | hmem
      · have : e' = e := by rw [he] at hw'; exact (PyVal.int.injEq _ _).mp hw'.symm
        exact this ▸ le_trans (le_max_right b e) hbE
      · exact hEbd w hmem e' hw'

theorem create_judgment_go_passed_only_if (common : JudgmentCommon) :
    ∀ (vs : List Verdict) (mm me : PyVal) (c : JudgmentCommon) (M E : PyVal),
    create_judgment_go common vs mm me = .ok (.passed c M E) →
    ∀ v ∈ vs, pyTruthy v.passed = true := by
  intro vs
  induction vs with
  | nil => intro _ _ _ _ _ _ v hv; exact absurd hv (List.not_mem_nil v)
  | cons v vs ih =>
    intro mm me c M E h w hw
    by_cases hv : pyTruthy v.passed = false
    · exfalso
      simp only [create_judgment_go, hv] at h
      by_cases hcnone : v.failure_cause = PyVal.none
      · simp [hcnone] at h
      · simp only [hcnone, if_false, if_true] at h
        rcases hu : unpassedPostInit v.failure_cause with fc | err
        all_goals simp_all
    · have hv' : pyTruthy v.passed = true := by
        cases hb : pyTruthy v.passed
        · exact absurd hb hv
        · rfl
      rcases List.mem_cons.mp hw with rfl | hmem
      · exact hv'
      · simp only [create_judgment_go, hv'] at h
        by_cases hnone : (v.memory_usage_mb = PyVal.none ∨ v.elapsed_time_ms = PyVal.none)
        · simp [hnone] at h
        · simp only [hnone, if_false] at h
          rcases h1 : pyMax mm v.memory_usage_mb with e1 | z1 <;>
            rcases h2 : pyMax me v.elapsed_time_ms with e2 | z2 <;>
            simp only [h1, h2] at h
          · simp at h
          · simp at h
          · simp at h
          · exact ih z1 z2 c M E h w hmem

theorem create_judgment_go_common_eq (common : JudgmentCommon) :
    ∀ (vs : List Verdict) (mm me : PyVal) (j : Judgment),
    create_judgment_go common vs mm me = .ok j → j.common = common := by
  intro vs
  induction vs with
  | nil =>
    intro mm me j h
    simp only [create_judgment_go] at h
    cases h; rfl
  | cons v vs ih =>
    intro mm me j h
    simp only [create_judgment_go] at h
    by_cases hv : pyTruthy v.passed = false <;> simp only [hv] at h
    · by_cases hcnone : v.failure_cause = PyVal.none <;> simp only [hcnone] at h
      · simp at h
      · simp only [if_true, if_false] at h
        rcases hu : unpassedPostInit v.failure_cause with fc | err <;> simp [hu] at h
        cases h; rfl
    · by_cases hnone : (v.memory_usage_mb = PyVal.none ∨ v.elapsed_time_ms = PyVal.none) <;>
        simp only [hnone] at h
      · simp at h
      · simp only [if_false] at h
        rcases h1 : pyMax mm v.memory_usage_mb with e1 | z1 <;>
          rcases h2 : pyMax me v.elapsed_time_ms with e2 | z2 <;>
          simp only [h1, h2] at h
        · simp at h
        · simp at h
        · simp at h
        · exact ih z1 z2 j h

/-! ## Sample fixtures (shared by witnesses and counterexamples) -/

/-- Common judgment fields of a sample job (values from the
`judgment.py` self-test block). -/
def sampleCommon : JudgmentCommon :=
  { user_id := 1, job_id := "job123", challenge_id := 42,
    code_language := CodeLanguage.C11, code := "aGk=", code_byte_size := 4,
    submitted_at := "2025-03-15T10:00:00" }

/-- Sample passing verdict (happy-path fixture, test case 1). -/
def samplePass1 : Verdict :=
  { passed := PyVal.bool true, test_case_index := PyVal.int 1,
    memory_usage_mb := PyVal.num (3/2), elapsed_time_ms := PyVal.int 50 }

/-- Sample passing verdict (happy-path fixture, test case 2). -/
def samplePass2 : Verdict :=
  { passed := PyVal.bool true, test_case_index := PyVal.int 2,
    memory_usage_mb := PyVal.num 2, elapsed_time_ms := PyVal.int 60 }

/-- Sample wrong-answer verdict as the stream parser constructs it. -/
def sampleWrongAnswer : Verdict :=
  { passed := PyVal.bool false, test_case_index := PyVal.int 1,
    failure_cause := PyVal.fc FailureCause.WRONG_ANSWER }

/-- Sample job record. -/
def sampleJob : CodeChallengeJudgmentJob :=
  { job_id := "job123", stop_flag := false, code_language := CodeLanguage.C11,
    code := "aGk=", challenge_id := 42, total_test_cases := 2, verdicts := [],
    submitted_at := "2025-03-15T10:00:00" }

/-! ## Claims -/

/-- C1: a verdict list whose first non-passing verdict is `v` (every earlier
verdict passed, with numeric measurements as produced by the pipeline, and
`v` carries a `FailureCause` member, as every pipeline verdict does) yields an
`UnpassedJudgment` copying `failureCause` and `failureDetail` from `v`;
moreover the parser gives a `passed = false` line the cause `WRONG_ANSWER`
and no `failureDetail`, so for a first non-pass of kind `WRONG_ANSWER` the
copied detail is absent. -/
theorem C1_unpassed_copies_first_nonpass
    (common : JudgmentCommon) (pre post : List Verdict) (v : Verdict) (c : FailureCause)
    (hpre : ∀ u ∈ pre, pyTruthy u.passed = true ∧
      (∃ m : ℚ, pyToRat? u.memory_usage_mb = some m) ∧
      (∃ e : ℚ, pyToRat? u.elapsed_time_ms = some e))
    (hv : pyTruthy v.passed = false)
    (hc : v.failure_cause = PyVal.fc c) :
    create_judgment_from_verdicts common (pre ++ v :: post) =
      .ok (.unpassed common (PyVal.fc c) v.failure_detail) ∧
    (∀ (job_id : String) (st : ParseState) (raw : String)
       (entries : List (String × PyVal)) (st' : ParseState),
      (∀ s, dget entries "status" ≠ PyVal.str s) →
      dget entries "passed" = PyVal.bool false →
      processDict job_id st raw entries = .ok st' →
      ∃ w : Verdict, st'.verdicts = st.verdicts ++ [w] ∧
        w.failure_cause = PyVal.fc FailureCause.WRONG_ANSWER ∧
        w.failure_detail = PyVal.none) := by
  constructor
  · exact create_judgment_go_first_nonpass common pre v post
      (PyVal.num 0) (PyVal.int 0) 0 0 rfl rfl hpre hv c hc
  · intro job_id st raw entries st' hst hp hok
    unfold processDict at hok
    rcases hds : dget entries "status" with _ | b | n | q | s | fc | l <;>
      rw [hds] at hok <;> simp only at hok
    case str => exact absurd hds (hst s)
    all_goals {
      rw [hp] at hok
      simp only [Bool.false_eq_true, if_false, Except.ok.injEq] at hok
      subst hok
      exact ⟨_, rfl, rfl, rfl⟩
    }

/-- Witness for C1 at the runtime-error fixture: one passing verdict followed
by a wrong-answer verdict. -/
theorem C1_witness :
    create_judgment_from_verdicts sampleCommon [samplePass1, sampleWrongAnswer] =
      .ok (.unpassed sampleCommon (PyVal.fc FailureCause.WRONG_ANSWER) PyVal.none) :=
  (C1_unpassed_copies_first_nonpass sampleCommon [samplePass1] []
    sampleWrongAnswer FailureCause.WRONG_ANSWER
    (by intro u hu; simp at hu; subst hu
        exact ⟨rfl, ⟨3/2, rfl⟩, ⟨50, rfl⟩⟩)
    rfl rfl).1

/-- C2 counterexample: on the empty verdict sequence the factory returns a
`PassedJudgment` with zero maxima, so "PassedJudgment only if the verdict
sequence is non-empty" fails at `verdicts = []`. -/
theorem C2_counterexample :
    create_judgment_from_verdicts sampleCommon [] =
      .ok (.passed sampleCommon (PyVal.num 0) (PyVal.int 0)) ∧
    ¬ (([] : List Verdict) ≠ []) := by
  exact ⟨rfl, by simp⟩

/-- C2 (amended): a `PassedJudgment` is produced iff every verdict passed
(the empty sequence included, which yields zero maxima). The only-if
direction holds for an arbitrary verdict sequence `ws` — whenever the factory
returns a `PassedJudgment`, every verdict of `ws` (in particular of one
containing a non-pass: never) had `passed = true`. For a sequence `vs` of
passing verdicts with non-negative measurements, `maxMemoryUsageMb` and
`maxElapsedTimeMs` are maxima of the per-verdict values: each is attained by
some verdict when the sequence is non-empty and bounds every verdict's
value. -/
theorem C2_passed_judgment_iff_all_passed
    (common : JudgmentCommon) (vs : List Verdict)
    (h : ∀ v ∈ vs, pyTruthy v.passed = true ∧
      (∃ m : ℚ, v.memory_usage_mb = PyVal.num m ∧ 0 ≤ m) ∧
      (∃ e : Int, v.elapsed_time_ms = PyVal.int e ∧ 0 ≤ e)) :
    create_judgment_from_verdicts common [] =
      .ok (.passed common (PyVal.num 0) (PyVal.int 0)) ∧
    (∀ (ws : List Verdict) (c : JudgmentCommon) (M E : PyVal),
      create_judgment_from_verdicts common ws = .ok (.passed c M E) →
      ∀ v ∈ ws, pyTruthy v.passed = true) ∧
    (∃ M : ℚ, ∃ E : Int,
      create_judgment_from_verdicts common vs =
        .ok (.passed common (PyVal.num M) (PyVal.int E)) ∧
      (vs ≠ [] → (∃ v ∈ vs, v.memory_usage_mb = PyVal.num M) ∧
                 (∃ v ∈ vs, v.elapsed_time_ms = PyVal.int E)) ∧
      (∀ v ∈ vs, ∀ m : ℚ, v.memory_usage_mb = PyVal.num m → m ≤ M) ∧
      (∀ v ∈ vs, ∀ e : Int, v.elapsed_time_ms = PyVal.int e → e ≤ E)) := by
  refine ⟨rfl, ?_, ?_⟩
  · intro ws c M E hok
    exact create_judgment_go_passed_only_if common ws (PyVal.num 0) (PyVal.int 0) c M E hok
  · obtain ⟨M, E, hgo, h0M, hMmem, hMbd, h0E, hEmem, hEbd⟩ :=
      create_judgment_go_all_passed common vs 0 0
        (fun v hv => ⟨(h v hv).1, ⟨(h v hv).2.1.choose, (h v hv).2.1.choose_spec.1⟩,
          ⟨(h v hv).2.2.choose, (h v hv).2.2.choose_spec.1⟩⟩)
    refine ⟨M, E, hgo, ?_, hMbd, hEbd⟩
    intro hne
    constructor
    · rcases hMmem with hM0 | hmem
      · rcases List.exists_mem_of_ne_nil vs hne with ⟨v, hv⟩
        obtain ⟨_, ⟨m, hm, hm0⟩, _⟩ := h v hv
        have hle : m ≤ M := hMbd v hv m hm
        have : m = M := le_antisymm hle (hM0 ▸ hm0)
        exact ⟨v, hv, this ▸ hm⟩
      · exact hmem
    · rcases hEmem with hE0 | hmem
      · rcases List.exists_mem_of_ne_nil vs hne with ⟨v, hv⟩
        obtain ⟨_, _, ⟨e, he, he0⟩⟩ := h v hv
        have hle : e ≤ E := hEbd v hv e he
        have : e = E := le_antisymm hle (hE0 ▸ he0)
        exact ⟨v, hv, this ▸ he⟩
      · exact hmem

/-- Witness for C2 at the happy-path fixture: two passing verdicts, maxima
60 ms and 2.0 MB. -/
theorem C2_witness :
    ∃ M : ℚ, ∃ E : Int,
      create_judgment_from_verdicts sampleCommon [samplePass1, samplePass2] =
        .ok (.passed sampleCommon (PyVal.num M) (PyVal.int E)) ∧
      (([samplePass1, samplePass2] : List Verdict) ≠ [] →
        (∃ v ∈ [samplePass1, samplePass2], v.memory_usage_mb = PyVal.num M) ∧
        (∃ v ∈ [samplePass1, samplePass2], v.elapsed_time_ms = PyVal.int E)) ∧
      (∀ v ∈ [samplePass1, samplePass2], ∀ m : ℚ, v.memory_usage_mb = PyVal.num m → m ≤ M) ∧
      (∀ v ∈ [samplePass1, samplePass2], ∀ e : Int, v.elapsed_time_ms = PyVal.int e → e ≤ E) :=
  (C2_passed_judgment_iff_all_passed sampleCommon [samplePass1, samplePass2]
    (by intro v hv
        simp only [List.mem_cons, List.not_mem_nil, or_false] at hv
        rcases hv with rfl | rfl
        · exact ⟨rfl, ⟨3/2, rfl, by norm_num⟩, ⟨50, rfl, by norm_num⟩⟩
        · exact ⟨rfl, ⟨2, rfl, by norm_num⟩, ⟨60, rfl, by norm_num⟩⟩)).2.2

/-- C3: in the supervisor's termination classification, an existing
non-passing verdict suppresses any sandbox-level marker; otherwise a fired
wall deadline appends a `SANDBOX_TIMEOUT` verdict and dispatches it as a
`TestCaseResult`; otherwise exit code 137 appends and dispatches a
`SANDBOX_OUT_OF_MEMORY` verdict. -/
theorem C3_termination_classification
    (job_id : String) (verdicts : List Verdict) (timed : Bool) (rc : Option Int) :
    ((∃ v ∈ verdicts, pyTruthy v.passed = false) →
      termination_classification job_id verdicts timed rc = (verdicts, [])) ∧
    ((∀ v ∈ verdicts, pyTruthy v.passed = true) → timed = true →
      termination_classification job_id verdicts timed rc =
        (verdicts ++ [sandbox_timeout_verdict],
         [Event.testCaseResult job_id sandbox_timeout_verdict])) ∧
    ((∀ v ∈ verdicts, pyTruthy v.passed = true) → timed = false → rc = some 137 →
      termination_classification job_id verdicts timed rc =
        (verdicts ++ [sandbox_oom_verdict],
         [Event.testCaseResult job_id sandbox_oom_verdict])) := by
  refine ⟨?_, ?_, ?_⟩
  · intro ⟨v, hv, hpass⟩
    have hany : verdicts.any (fun v => !(pyTruthy v.passed)) = true := by
      simp only [List.any_eq_true]
      exact ⟨v, hv, by simp [hpass]⟩
    simp [termination_classification, hany]
  · intro hall ht
    have hany : verdicts.any (fun v => !(pyTruthy v.passed)) = false := by
      simp only [List.any_eq_false]
      intro v hv
      simp [hall v hv]
    simp [termination_classification, hany, ht]
  · intro hall ht hrc
    have hany : verdicts.any (fun v => !(pyTruthy v.passed)) = false := by
      simp only [List.any_eq_false]
      intro v hv
      simp [hall v hv]
    simp [termination_classification, hany, ht, hrc]

/-- Witness for C3: a recorded wrong answer suppresses the timeout marker; an
all-passed list with a fired deadline gets `SANDBOX_TIMEOUT`; exit code 137
without a deadline gets `SANDBOX_OUT_OF_MEMORY`. -/
theorem C3_witness :
    termination_classification "job123" [sampleWrongAnswer] true (some 137) =
      ([sampleWrongAnswer], []) ∧
    termination_classification "job123" [samplePass1] true Option.none =
      ([samplePass1, sandbox_timeout_verdict],
       [Event.testCaseResult "job123" sandbox_timeout_verdict]) ∧
    termination_classification "job123" [samplePass1] false (some 137) =
      ([samplePass1, sandbox_oom_verdict],
       [Event.testCaseResult "job123" sandbox_oom_verdict]) :=
  ⟨(C3_termination_classification "job123" [sampleWrongAnswer] true (some 137)).1
      ⟨sampleWrongAnswer, by simp, by decide⟩,
   (C3_termination_classification "job123" [samplePass1] true Option.none).2.1
      (by intro v hv; simp at hv; subst hv; decide) rfl,
   (C3_termination_classification "job123" [samplePass1] false (some 137)).2.2
      (by intro v hv; simp at hv; subst hv; decide) rfl rfl⟩

/-- C4: a stdout line whose JSON object has `status` equal to
`"compileError"` or `"runtimeError"` and an integer `exitCode` produces a
failing verdict whose `failureCause` follows the exit-code table (124 maps to
the timeout causes, 137 to the out-of-memory causes, anything else including
0 to the plain error causes, selected by the phase) and whose
`failureDetail` is the line's `error` field; the verdict is appended and
dispatched as a `TestCaseResult`. -/
theorem C4_exit_code_table
    (job_id : String) (st : ParseState) (raw : String)
    (entries : List (String × PyVal)) (s : String) (ec : Int)
    (hs : s = "compileError" ∨ s = "runtimeError")
    (hstatus : dget entries "status" = PyVal.str s)
    (hec : dget entries "exitCode" = PyVal.int ec) :
    ∃ v : Verdict,
      processDict job_id st raw entries =
        .ok { st with verdicts := st.verdicts ++ [v],
                      events := st.events ++ [Event.testCaseResult job_id v] } ∧
      v.passed = PyVal.bool false ∧
      v.failure_detail = dget entries "error" ∧
      v.failure_cause = PyVal.fc
        (if ec = 124 then
          (if s = "compileError" then .COMPILE_TIMEOUT else .RUNTIME_TIMEOUT)
         else if ec = 137 then
          (if s = "compileError" then .COMPILE_OUT_OF_MEMORY else .RUNTIME_OUT_OF_MEMORY)
         else
          (if s = "compileError" then .COMPILE_ERROR else .RUNTIME_ERROR)) := by
  have hsys : s ≠ "systemError" := by rcases hs with rfl | rfl <;> decide
  have htable : failure_reason_for s ec =
      (if ec = 124 then
        (if s = "compileError" then .COMPILE_TIMEOUT else .RUNTIME_TIMEOUT)
       else if ec = 137 then
        (if s = "compileError" then .COMPILE_OUT_OF_MEMORY else .RUNTIME_OUT_OF_MEMORY)
       else
        (if s = "compileError" then .COMPILE_ERROR else .RUNTIME_ERROR)) := by
    unfold failure_reason_for
    by_cases h0 : ec = 0
    · subst h0; norm_num
    · by_cases h124 : ec = 124 <;> by_cases h137 : ec = 137 <;>
        simp [h0, h124, h137]
  refine ⟨{ passed := PyVal.bool false,
            test_case_index := if s = "compileError" then PyVal.none
                               else dget entries "testCaseIndex",
            failure_cause := PyVal.fc (failure_reason_for s ec),
            failure_detail := dget entries "error" },
          ?_, rfl, rfl, congrArg PyVal.fc htable⟩
  unfold processDict
  rw [hstatus]
  simp only [hsys, if_false, hec]
  rfl

/-- Witness for C4 at the runtime-error fixture line
(status runtimeError, exitCode 0, error "segmentation fault"). -/
theorem C4_witness :
    ∃ v : Verdict,
      processDict "job123" {} "line2"
        [("status", PyVal.str "runtimeError"), ("exitCode", PyVal.int 0),
         ("testCaseIndex", PyVal.int 2), ("error", PyVal.str "segmentation fault")] =
        .ok { verdicts := [v], unexpected := [],
              events := [Event.testCaseResult "job123" v] } ∧
      v.passed = PyVal.bool false ∧
      v.failure_detail = PyVal.str "segmentation fault" ∧
      v.failure_cause = PyVal.fc FailureCause.RUNTIME_ERROR := by
  obtain ⟨v, h1, h2, h3, h4⟩ :=
    C4_exit_code_table "job123" {} "line2"
      [("status", PyVal.str "runtimeError"), ("exitCode", PyVal.int 0),
       ("testCaseIndex", PyVal.int 2), ("error", PyVal.str "segmentation fault")]
      "runtimeError" 0 (Or.inr rfl) rfl rfl
  exact ⟨v, by simpa using h1, h2, by simpa using h3, by simpa using h4⟩

/-- Predicate on an event: if it is a `TestCaseResult`, its verdict's
`testCaseIndex` is absent or an integer within `1..total`. -/
def indexWithin (total : Int) (e : Event) : Prop :=
  ∀ jid v, e = Event.testCaseResult jid v →
    v.test_case_index = PyVal.none ∨
    ∃ n : Int, v.test_case_index = PyVal.int n ∧ 1 ≤ n ∧ n ≤ total

theorem processDict_result (job_id : String) (st : ParseState) (raw : String)
    (entries : List (String × PyVal)) (st' : ParseState)
    (hok : processDict job_id st raw entries = .ok st') :
    st' = { st with unexpected := st.unexpected ++ [raw] } ∨
    (∃ s ec, dget entries "status" = PyVal.str s ∧
      st' = { st with
        verdicts := st.verdicts ++ [parsed_error_verdict entries s ec],
        events := st.events ++
          [Event.testCaseResult job_id (parsed_error_verdict entries s ec)] }) ∨
    (∃ b, dget entries "passed" = PyVal.bool b ∧
      st' = { st with
        verdicts := st.verdicts ++ [parsed_bool_verdict entries b],
        events := st.events ++
          [Event.testCaseResult job_id (parsed_bool_verdict entries b)] }) := by
  unfold processDict at hok
  rcases hds : dget entries "status" with _ | b0 | n0 | q0 | s0 | f0 | lg0 <;>
    rw [hds] at hok <;> simp only at hok
  all_goals try {
    rcases hp : dget entries "passed" with _ | b | n1 | q1 | s1 | f1 | lg1 <;>
      rw [hp] at hok <;> simp only [Except.ok.injEq] at hok <;> subst hok <;>
      first
        | exact Or.inr (Or.inr ⟨_, rfl, rfl⟩)
        | exact Or.inl rfl
  }
  by_cases hsys : s0 = "systemError"
  · rw [hsys] at hok
    simp at hok
  · simp only [hsys, if_false] at hok
    rcases hint : pyInt? (dget entries "exitCode") with _ | ec <;>
      rw [hint] at hok <;> simp only [Except.ok.injEq] at hok
    · simp at hok
    · subst hok
      exact Or.inr (Or.inl ⟨s0, ec, rfl, rfl⟩)

theorem processLine_index_invariant (stream_name job_id : String) (total : Int)
    (st : ParseState) (l : StreamLine) (st' : ParseState)
    (hl : ∀ raw entries, l = StreamLine.jsonDict raw entries →
      dget entries "testCaseIndex" = PyVal.none ∨
      ∃ n : Int, dget entries "testCaseIndex" = PyVal.int n ∧ 1 ≤ n ∧ n ≤ total)
    (hok : processLine stream_name job_id st l = .ok st') :
    ∀ e ∈ st'.events, e ∈ st.events ∨ indexWithin total e := by
  intro e he
  cases l with
  | empty =>
    simp only [processLine, Except.ok.injEq] at hok
    subst hok
    exact Or.inl he
  | notJson raw =>
    simp only [processLine] at hok
    by_cases hstream : stream_name = "stderr" <;>
      simp only [hstream, if_true, if_false, Except.ok.injEq] at hok <;>
      subst hok <;> exact Or.inl he
  | jsonNonDict raw v =>
    simp only [processLine] at hok
    by_cases hstream : stream_name = "stderr" <;>
      simp only [hstream, if_true, if_false, Except.ok.injEq] at hok <;>
      subst hok <;> exact Or.inl he
  | jsonDict raw entries =>
    simp only [processLine] at hok
    by_cases hstream : stream_name = "stderr"
    · simp only [hstream, if_true, Except.ok.injEq] at hok
      subst hok
      exact Or.inl he
    · simp only [hstream, if_false] at hok
      have hidx := hl raw entries rfl
      rcases processDict_result job_id st raw entries st' hok with
        hst' | ⟨s, ec, _, hst'⟩ | ⟨b, _, hst'⟩ <;> subst hst'
      · exact Or.inl he
      · simp only [List.mem_append, List.mem_singleton] at he
        rcases he with he | he
        · exact Or.inl he
        · subst he
          refine Or.inr ?_
          intro jid v hv
          cases hv
          unfold parsed_error_verdict
          by_cases hc : s = "compileError" <;> simp only [hc, if_true, if_false]
          · exact Or.inl trivial
          · exact hidx
      · simp only [List.mem_append, List.mem_singleton] at he
        rcases he with he | he
        · exact Or.inl he
        · subst he
          refine Or.inr ?_
          intro jid v hv
          cases hv
          unfold parsed_bool_verdict
          cases b <;> simp only [Bool.false_eq_true, if_true, if_false] <;> exact hidx

theorem runLines_index_invariant (stream_name job_id : String) (total : Int) :
    ∀ (lines : List StreamLine) (st : ParseState),
    (∀ l ∈ lines, ∀ raw entries, l = StreamLine.jsonDict raw entries →
      dget entries "testCaseIndex" = PyVal.none ∨
      ∃ n : Int, dget entries "testCaseIndex" = PyVal.int n ∧ 1 ≤ n ∧ n ≤ total) →
    (∀ e ∈ st.events, indexWithin total e) →
    ∀ e ∈ (runLines stream_name job_id lines st).1.events, indexWithin total e := by
  intro lines
  induction lines with
  | nil => intro st _ hst e he; exact hst e he
  | cons l ls ih =>
    intro st hl hst e he
    rcases hpl : processLine stream_name job_id st l with err | st'
    · simp only [runLines, hpl] at he
      exact hst e he
    · simp only [runLines, hpl] at he
      refine ih st' (fun w hw => hl w (by simp [hw])) ?_ e he
      intro e' he'
      rcases processLine_index_invariant stream_name job_id total st l st'
          (hl l (by simp)) hpl e' he' with hmem | hP
      · exact hst e' hmem
      · exact hP

/-- C5 counterexample: the sandbox-timeout path dispatches a per-case
`TestCaseResult` whose verdict carries no `testCaseIndex` at all, so "the
contained verdict's testCaseIndex is an integer satisfying
1 ≤ testCaseIndex ≤ totalTestCases" fails on this concrete job. -/
theorem C5_counterexample :
    (termination_classification "job123" [] true Option.none).2 =
      [Event.testCaseResult "job123" sandbox_timeout_verdict] ∧
    sandbox_timeout_verdict.test_case_index = PyVal.none := ⟨rfl, rfl⟩

/-- C5 (amended): an emitted per-case `TestCaseResult` verdict either carries
no `testCaseIndex` (compile-level and sandbox-level failures) or carries the
index taken verbatim from the sandbox output line; hence when every stdout
object's `testCaseIndex` is an integer in `1..totalTestCases`, every emitted
index lies in that range. Sandbox-level markers always carry no index. -/
theorem C5_test_case_index_range
    (stream_name job_id : String) (lines : List StreamLine) (total : Int)
    (h : ∀ l ∈ lines, ∀ raw entries, l = StreamLine.jsonDict raw entries →
      dget entries "testCaseIndex" = PyVal.none ∨
      ∃ n : Int, dget entries "testCaseIndex" = PyVal.int n ∧ 1 ≤ n ∧ n ≤ total) :
    (∀ e ∈ (async_handle_output stream_name job_id lines).events,
      indexWithin total e) ∧
    (∀ (verdicts : List Verdict) (timed : Bool) (rc : Option Int),
      ∀ e ∈ (termination_classification job_id verdicts timed rc).2,
      ∀ jid v, e = Event.testCaseResult jid v → v.test_case_index = PyVal.none) := by
  constructor
  · intro e he
    have hloop := runLines_index_invariant stream_name job_id total lines {}
      h (by intro e' he'; exact absurd he' (List.not_mem_nil e'))
    unfold async_handle_output at he
    by_cases hr : ((runLines stream_name job_id lines {}).2 ||
        !(runLines stream_name job_id lines {}).1.unexpected.isEmpty) = true
    · simp only [hr, if_true, List.mem_append, List.mem_singleton] at he
      rcases he with he | he
      · exact hloop e he
      · subst he
        intro jid v hv
        cases hv
    · simp only [hr, if_false] at he
      exact hloop e he
  · intro verdicts timed rc e he jid v hv
    unfold termination_classification at he
    by_cases hany : verdicts.any (fun w => !(pyTruthy w.passed)) = true
    · simp [hany] at he
    · simp only [Bool.not_eq_true] at hany
      cases timed <;> simp only [hany, Bool.false_eq_true, if_false, if_true] at he
      · by_cases hrc : rc = some (137 : Int)
        · simp [hrc] at he
          subst he
          cases hv
          rfl
        · simp [hrc] at he
      · simp only [List.mem_singleton] at he
        subst he
        cases hv
        rfl

/-- Witness for C5 on a two-line stdout stream whose indices are 1 and 2 with
`totalTestCases = 2`: the first emitted `TestCaseResult` verdict's index is
within range. -/
theorem C5_witness :
    indexWithin 2 (Event.testCaseResult "job123" (parsed_bool_verdict
      [("passed", PyVal.bool true), ("testCaseIndex", PyVal.int 1),
       ("elapsedTimeMs", PyVal.int 50), ("memoryUsageMb", PyVal.num (3/2))] true)) :=
  (C5_test_case_index_range "stdout" "job123"
    [StreamLine.jsonDict "line1"
      [("passed", PyVal.bool true), ("testCaseIndex", PyVal.int 1),
       ("elapsedTimeMs", PyVal.int 50), ("memoryUsageMb", PyVal.num (3/2))],
     StreamLine.jsonDict "line2"
      [("passed", PyVal.bool false), ("testCaseIndex", PyVal.int 2)]] 2
    (by intro l hl raw entries hleq
        simp only [List.mem_cons, List.not_mem_nil, or_false] at hl
        rcases hl with rfl | rfl <;> cases hleq <;>
          exact Or.inr ⟨_, rfl, by norm_num, by norm_num⟩)).1 _ (List.Mem.head _)

/-- C6 counterexample: a per-case dispatch answered 503 kills the sandbox and
sets the cleanup flag, after which the supervisor's complete action list is
exactly one job deletion — the claimed `Error` webhook event is never
emitted on this path (and no final judgment is either). -/
theorem C6_counterexample :
    handle_webhook_response 503 true false =
      { killed_proc := true, cleanup_set := true } ∧
    supervisor_finish 1 sampleJob [samplePass1] false Option.none true =
      .ok [Action.deleteJob "job123" 1] ∧
    mentionsErrorEvent [Action.deleteJob "job123" 1] = false := by
  exact ⟨rfl, rfl, rfl⟩

/-- C6 (amended): a per-case webhook dispatch resolving with a status other
than 200 kills the sandbox process when it is still running and sets the
shared cleanup flag; the supervisor, seeing the flag, deletes the job record
and returns — its action list is the single deletion, so no final judgment
and also no `Error` event is emitted. -/
theorem C6_webhook_failure_teardown
    (response_code : Int) (proc_alive flag : Bool)
    (user_id : Int) (job : CodeChallengeJudgmentJob) (verdicts : List Verdict)
    (timed : Bool) (rc : Option Int)
    (h : response_code ≠ 200) :
    (handle_webhook_response response_code proc_alive flag).killed_proc = proc_alive ∧
    (handle_webhook_response response_code proc_alive flag).cleanup_set = true ∧
    supervisor_finish user_id job verdicts timed rc true =
      .ok [Action.deleteJob job.job_id user_id] ∧
    mentionsJudgmentEvent [Action.deleteJob job.job_id user_id] = false ∧
    mentionsErrorEvent [Action.deleteJob job.job_id user_id] = false := by
  refine ⟨?_, ?_, rfl, rfl, rfl⟩
  · simp [handle_webhook_response, h]
  · simp [handle_webhook_response, h]

/-- Witness for C6 at response code 503. -/
theorem C6_witness :
    (handle_webhook_response 503 true false).killed_proc = true ∧
    (handle_webhook_response 503 true false).cleanup_set = true ∧
    supervisor_finish 7 sampleJob [] true (some 0) true =
      .ok [Action.deleteJob "job123" 7] ∧
    mentionsJudgmentEvent [Action.deleteJob "job123" 7] = false ∧
    mentionsErrorEvent [Action.deleteJob "job123" 7] = false :=
  C6_webhook_failure_teardown 503 true false 7 sampleJob [] true (some 0)
    (by decide)

theorem runLines_append (stream_name job_id : String) :
    ∀ (xs ys : List StreamLine) (st : ParseState),
    runLines stream_name job_id (xs ++ ys) st =
      (if (runLines stream_name job_id xs st).2 then runLines stream_name job_id xs st
       else runLines stream_name job_id ys (runLines stream_name job_id xs st).1) := by
  intro xs
  induction xs with
  | nil => intro ys st; simp [runLines]
  | cons l ls ih =>
    intro ys st
    rcases hpl : processLine stream_name job_id st l with err | st'
    · simp [runLines, hpl]
    · simp only [List.cons_append, runLines, hpl]
      exact ih ys st'

/-- C7: whenever the stream handler raises (a `systemError` line on stdout,
or unexpected-output lines left at stream close), it kills the sandbox, sets
the shared cleanup event and dispatches an `Error` webhook event; and the
supervisor, seeing the cleanup flag, deletes the job record and returns with
no final judgment. -/
theorem C7_stream_error_teardown (stream_name job_id : String) :
    (∀ lines : List StreamLine,
      (async_handle_output stream_name job_id lines).raised = true →
      (async_handle_output stream_name job_id lines).killed_proc = true ∧
      (async_handle_output stream_name job_id lines).cleanup_set = true ∧
      Event.error job_id "Internal server error" ∈
        (async_handle_output stream_name job_id lines).events) ∧
    (∀ (pre suf : List StreamLine) (raw : String) (entries : List (String × PyVal)),
      (runLines "stdout" job_id pre {}).2 = false →
      dget entries "status" = PyVal.str "systemError" →
      (async_handle_output "stdout" job_id
        (pre ++ StreamLine.jsonDict raw entries :: suf)).raised = true) ∧
    (∀ lines : List StreamLine,
      (runLines stream_name job_id lines {}).2 = false →
      (runLines stream_name job_id lines {}).1.unexpected ≠ [] →
      (async_handle_output stream_name job_id lines).raised = true) ∧
    (∀ (user_id : Int) (job : CodeChallengeJudgmentJob) (verdicts : List Verdict)
       (timed : Bool) (rc : Option Int),
      supervisor_finish user_id job verdicts timed rc true =
        .ok [Action.deleteJob job.job_id user_id] ∧
      mentionsJudgmentEvent [Action.deleteJob job.job_id user_id] = false) := by
  refine ⟨?_, ?_, ?_, ?_⟩
  · intro lines h
    cases hcond : ((runLines stream_name job_id lines {}).2 ||
        !(runLines stream_name job_id lines {}).1.unexpected.isEmpty)
    · simp only [async_handle_output, hcond] at h
      simp at h
    · simp only [async_handle_output, hcond]
      simp
  · intro pre suf raw entries hpre hstatus
    have hline : processLine "stdout" job_id (runLines "stdout" job_id pre {}).1
        (StreamLine.jsonDict raw entries) =
        .error (pyExceptionMsg (dget entries "error")) := by
      simp only [processLine, if_false]
      unfold processDict
      rw [hstatus]
      simp
    have hrun : (runLines "stdout" job_id
        (pre ++ StreamLine.jsonDict raw entries :: suf) {}).2 = true := by
      rw [runLines_append]
      rw [hpre]
      simp only [if_false, Bool.false_eq_true]
      simp only [runLines, hline]
    simp only [async_handle_output, hrun]
    simp
  · intro lines h1 h2
    have hcond : ((runLines stream_name job_id lines {}).2 ||
        !(runLines stream_name job_id lines {}).1.unexpected.isEmpty) = true := by
      simp [h1, h2]
    simp only [async_handle_output, hcond]
    simp
  · intro user_id job verdicts timed rc
    exact ⟨rfl, rfl⟩

/-- Witness for C7: a single systemError stdout line raises, and the handler
kills the sandbox, sets the flag and emits the `Error` event; the supervisor
then deletes the job with no judgment dispatch. -/
theorem C7_witness :
    (async_handle_output "stdout" "job123"
      [StreamLine.jsonDict "line1" [("status", PyVal.str "systemError"),
        ("error", PyVal.str "boom")]]).raised = true ∧
    (async_handle_output "stdout" "job123"
      [StreamLine.jsonDict "line1" [("status", PyVal.str "systemError"),
        ("error", PyVal.str "boom")]]).killed_proc = true ∧
    (async_handle_output "stdout" "job123"
      [StreamLine.jsonDict "line1" [("status", PyVal.str "systemError"),
        ("error", PyVal.str "boom")]]).cleanup_set = true ∧
    Event.error "job123" "Internal server error" ∈
      (async_handle_output "stdout" "job123"
        [StreamLine.jsonDict "line1" [("status", PyVal.str "systemError"),
          ("error", PyVal.str "boom")]]).events ∧
    supervisor_finish 1 sampleJob [] false Option.none true =
      .ok [Action.deleteJob "job123" 1] := by
  have hraised : (async_handle_output "stdout" "job123"
      [StreamLine.jsonDict "line1" [("status", PyVal.str "systemError"),
        ("error", PyVal.str "boom")]]).raised = true :=
    (C7_stream_error_teardown "stdout" "job123").2.1 [] []
      "line1" [("status", PyVal.str "systemError"), ("error", PyVal.str "boom")]
      rfl rfl
  obtain ⟨hk, hc, hm⟩ := (C7_stream_error_teardown "stdout" "job123").1
    [StreamLine.jsonDict "line1" [("status", PyVal.str "systemError"),
      ("error", PyVal.str "boom")]] hraised
  exact ⟨hraised, hk, hc, hm,
    ((C7_stream_error_teardown "stdout" "job123").2.2.2 1 sampleJob [] false Option.none).1⟩

/-- C8 counterexample: a stderr line that parses to a JSON object with a
boolean `passed` field produces no verdict — it is accumulated as unexpected
output — so "the same per-line classification on both streams" fails at this
concrete line. -/
theorem C8_counterexample :
    processLine "stderr" "job123" {}
      (StreamLine.jsonDict "stderr-pass-line"
        [("passed", PyVal.bool true), ("testCaseIndex", PyVal.int 1),
         ("elapsedTimeMs", PyVal.int 50), ("memoryUsageMb", PyVal.num (3/2))]) =
      .ok { verdicts := [], unexpected := ["stderr-pass-line"], events := [] } := by
  exact rfl

/-- C8 (amended): only stdout lines are classified; every non-empty stderr
line is accumulated verbatim as unexpected output and produces no verdict.
On stdout, a JSON-object line whose `status` is not a string and whose
`passed` is a boolean produces exactly one verdict: a passing verdict
carrying the line's `testCaseIndex`, `elapsedTimeMs` and `memoryUsageMb` when
`passed` is true, and a failing `WRONG_ANSWER` verdict otherwise; either is
dispatched as a `TestCaseResult`. -/
theorem C8_per_stream_classification (job_id : String) (st : ParseState) :
    (∀ l : StreamLine, l ≠ StreamLine.empty →
      processLine "stderr" job_id st l =
        .ok { st with unexpected := st.unexpected ++ [l.raw] }) ∧
    (∀ (raw : String) (entries : List (String × PyVal)) (b : Bool),
      (∀ s, dget entries "status" ≠ PyVal.str s) →
      dget entries "passed" = PyVal.bool b →
      processLine "stdout" job_id st (StreamLine.jsonDict raw entries) =
        .ok { st with
          verdicts := st.verdicts ++ [parsed_bool_verdict entries b],
          events := st.events ++
            [Event.testCaseResult job_id (parsed_bool_verdict entries b)] } ∧
      (b = true → parsed_bool_verdict entries b =
        { passed := PyVal.bool true,
          test_case_index := dget entries "testCaseIndex",
          elapsed_time_ms := dget entries "elapsedTimeMs",
          memory_usage_mb := dget entries "memoryUsageMb" }) ∧
      (b = false → parsed_bool_verdict entries b =
        { passed := PyVal.bool false,
          test_case_index := dget entries "testCaseIndex",
          failure_cause := PyVal.fc FailureCause.WRONG_ANSWER })) := by
  constructor
  · intro l hl
    cases l with
    | empty => exact absurd rfl hl
    | notJson raw => simp [processLine, StreamLine.raw]
    | jsonNonDict raw v => simp [processLine, StreamLine.raw]
    | jsonDict raw entries => simp [processLine, StreamLine.raw]
  · intro raw entries b hns hp
    refine ⟨?_, ?_, ?_⟩
    · simp only [processLine, if_false]
      unfold processDict
      rcases hds : dget entries "status" with _ | b0 | n0 | q0 | s0 | f0 | lg0 <;>
        simp only
      case str => exact absurd hds (hns s0)
      all_goals (rw [hp]; rfl)
    · intro hb; subst hb; rfl
    · intro hb; subst hb; rfl

/-- Witness for C8: the stderr conjunct at a concrete JSON line and the
stdout conjunct at a concrete passing line. -/
theorem C8_witness :
    processLine "stderr" "job123" {}
      (StreamLine.jsonDict "err-line" [("passed", PyVal.bool false)]) =
      .ok { verdicts := [], unexpected := ["err-line"], events := [] } ∧
    processLine "stdout" "job123" {}
      (StreamLine.jsonDict "ok-line"
        [("passed", PyVal.bool true), ("testCaseIndex", PyVal.int 1),
         ("elapsedTimeMs", PyVal.int 50), ("memoryUsageMb", PyVal.num (3/2))]) =
      .ok { verdicts := [parsed_bool_verdict
              [("passed", PyVal.bool true), ("testCaseIndex", PyVal.int 1),
               ("elapsedTimeMs", PyVal.int 50), ("memoryUsageMb", PyVal.num (3/2))] true],
            unexpected := [],
            events := [Event.testCaseResult "job123" (parsed_bool_verdict
              [("passed", PyVal.bool true), ("testCaseIndex", PyVal.int 1),
               ("elapsedTimeMs", PyVal.int 50), ("memoryUsageMb", PyVal.num (3/2))] true)] } :=
  ⟨(C8_per_stream_classification "job123" {}).1
      (StreamLine.jsonDict "err-line" [("passed", PyVal.bool false)]) (by decide),
   ((C8_per_stream_classification "job123" {}).2 "ok-line"
      [("passed", PyVal.bool true), ("testCaseIndex", PyVal.int 1),
       ("elapsedTimeMs", PyVal.int 50), ("memoryUsageMb", PyVal.num (3/2))] true
      (by intro s h; exact PyVal.noConfusion (show PyVal.none = PyVal.str s from h)) rfl).1⟩

theorem process_value_id {x : PyVal} (h : PyVal.isEnumVal x = false) :
    process_value x = x := by
  cases x <;> simp [PyVal.isEnumVal] at h ⊢ <;> rfl

theorem fromValue_value (c : FailureCause) :
    FailureCause.fromValue? c.value = some c := by
  cases c <;> rfl

/-- C9: parsing the dictionary serialized from a `Verdict` yields an equal
`Verdict` (for verdicts as the program constructs them: `failure_cause` is
absent or an enum member by `__post_init__`, and no other field holds an enum
object), and snake-to-camel followed by camel-to-snake is the identity on
every schema field name. -/
theorem C9_roundtrip_laws (v : Verdict)
    (hfc : v.failure_cause = PyVal.none ∨ ∃ c, v.failure_cause = PyVal.fc c)
    (h1 : PyVal.isEnumVal v.passed = false)
    (h2 : PyVal.isEnumVal v.test_case_index = false)
    (h3 : PyVal.isEnumVal v.memory_usage_mb = false)
    (h4 : PyVal.isEnumVal v.elapsed_time_ms = false)
    (h5 : PyVal.isEnumVal v.failure_detail = false) :
    Verdict.create_from_dict (Verdict.as_dict v) = .ok v ∧
    ∀ n ∈ all_schema_field_names, camel_to_snake (snake_to_camel n) = n := by
  constructor
  · obtain ⟨p, ti, mm, el, fcv, fd⟩ := v
    simp only at hfc h1 h2 h3 h4 h5
    have e1 := process_value_id h1
    have e2 := process_value_id h2
    have e3 := process_value_id h3
    have e4 := process_value_id h4
    have e5 := process_value_id h5
    rcases hfc with rfl | ⟨c, rfl⟩
    · simp only [Verdict.as_dict, e1, e2, e3, e4, e5]
      rfl
    · simp only [Verdict.as_dict, e1, e2, e3, e4, e5]
      cases c <;> rfl
  · decide

/-- Witness for C9 at a concrete wrong-answer verdict. -/
theorem C9_witness :
    Verdict.create_from_dict (Verdict.as_dict sampleWrongAnswer) =
      .ok sampleWrongAnswer ∧
    ∀ n ∈ all_schema_field_names, camel_to_snake (snake_to_camel n) = n :=
  C9_roundtrip_laws sampleWrongAnswer
    (Or.inr ⟨FailureCause.WRONG_ANSWER, rfl⟩) rfl rfl rfl rfl rfl

theorem termination_classification_events_shape
    (job_id : String) (verdicts : List Verdict) (timed : Bool) (rc : Option Int) :
    ∀ e ∈ (termination_classification job_id verdicts timed rc).2,
      ∃ jid w, e = Event.testCaseResult jid w := by
  intro e he
  unfold termination_classification at he
  by_cases hany : verdicts.any (fun w => !(pyTruthy w.passed)) = true
  · simp [hany] at he
  · simp only [Bool.not_eq_true] at hany
    cases timed <;> simp only [hany, Bool.false_eq_true, if_false, if_true] at he
    · by_cases hrc : rc = some (137 : Int) <;> simp [hrc] at he
      · exact ⟨job_id, sandbox_oom_verdict, he⟩
    · simp only [List.mem_singleton] at he
      exact ⟨job_id, sandbox_timeout_verdict, he⟩

/-- C10: every final judgment the supervisor dispatches carries
`codeByteSize` equal to the length of the base64 `job.code` string itself
(`len(job.code)`, `helpers.py` line 337) — not the length of the decoded
source bytes. -/
theorem C10_code_byte_size (user_id : Int) (job : CodeChallengeJudgmentJob)
    (verdicts : List Verdict) (timed : Bool) (rc : Option Int)
    (actions : List Action)
    (h : supervisor_finish user_id job verdicts timed rc false = .ok actions) :
    ∀ j : Judgment, Action.dispatch (Event.judgment j) ∈ actions →
      j.common.code_byte_size = (job.code.length : Int) := by
  intro j hj
  unfold supervisor_finish at h
  simp only [Bool.false_eq_true, if_false] at h
  rcases hcj : create_judgment_from_verdicts
      { user_id := user_id, job_id := job.job_id, challenge_id := job.challenge_id,
        code_language := job.code_language, code := job.code,
        code_byte_size := (job.code.length : Int), submitted_at := job.submitted_at }
      (termination_classification job.job_id verdicts timed rc).1 with err | judgment <;>
    rw [hcj] at h <;> simp only [Except.ok.injEq] at h
  · simp at h
  · subst h
    simp only [List.mem_append, List.mem_cons, List.not_mem_nil, or_false,
      List.mem_map] at hj
    rcases hj with ⟨ev, hev, heq⟩ | hj | hj
    · obtain ⟨jid, w, rfl⟩ :=
        termination_classification_events_shape job.job_id verdicts timed rc ev hev
      simp at heq
    · cases hj
      have := create_judgment_go_common_eq _ _ _ _ _ hcj
      rw [this]
    · simp at hj

/-- Witness for C10: for the sample job whose stored code is the 4-character
base64 string (decoding to 2 bytes), the dispatched judgment's
`codeByteSize` is 4. -/
theorem C10_witness :
    (Judgment.passed sampleCommon (PyVal.num 0) (PyVal.int 0)).common.code_byte_size =
      ((4 : Nat) : Int) :=
  C10_code_byte_size 1 sampleJob [] false Option.none _ rfl
    (Judgment.passed sampleCommon (PyVal.num 0) (PyVal.int 0)) (by decide)

end Devolt
